import Mathlib

set_option maxRecDepth 2000

/-!
Verification of the emotion-change / influence-attribution core of
`transcript_sentiment_analysis.py`.

The embedding models the pandas DataFrame of scored utterances as a
`List Utterance` (rows in frame order), sentiment scores and times as
rationals, and the two core operations:

* `analyze_emotion_changes` — per-speaker scan for sentiment shifts, with
  cross-speaker trigger resolution (source lines 528–588);
* `trigger_impact` — group-by-trigger-speaker aggregation with count /
  mean / sum and a descending sort on total impact (source lines 643–648);
* `load_transcript_from_file` — the line-oriented transcript parser
  (source lines 113–176), modelled on the list of file lines.

pandas `sort_values` defaults to quicksort, whose order among rows with
equal keys is not specified by the source; the embedding fixes one
concretization, the stable `List.insertionSort`.  `Series.unique` keeps
first-appearance order, which `uniqueAux` reproduces; `groupby` sorts its
keys ascending, which `groupKeys` reproduces.
-/

/-- One scored utterance: a row of `emotion_df` after the rename to
`start_time` / `end_time` (source lines 274–285). -/
structure Utterance where
  speaker : String
  start_time : ℚ
  end_time : ℚ
  text : String
  emotion : String
  sentiment_score : ℚ
deriving DecidableEq, Repr

/-- One detected sentiment shift: the dict appended to `changes`
(source lines 571–586). -/
structure ChangeEvent where
  affected_speaker : String
  change_type : String
  score_change : ℚ
  before_score : ℚ
  after_score : ℚ
  before_time : ℚ
  after_time : ℚ
  before_text : String
  after_text : String
  trigger_speaker : String
  trigger_time : ℚ
  trigger_text : String
  trigger_emotion : String
  trigger_score : ℚ
deriving DecidableEq, Repr

/-- One row of the `trigger_impact` aggregation (source lines 643–648). -/
structure InfluenceEntry where
  trigger_speaker : String
  count : ℕ
  avg_impact : ℚ
  total_impact : ℚ
deriving DecidableEq, Repr

/-- First-appearance deduplication with an accumulator of already seen
keys; `uniqueAux l []` models `pandas.Series.unique`, which keeps the
order of first appearance. -/
def uniqueAux : List String → List String → List String
  | [], _ => []
  | a :: l, seen => if a ∈ seen then uniqueAux l seen else a :: uniqueAux l (a :: seen)

/-- The distinct speakers of the frame in first-appearance order:
`emotion_df['speaker'].unique()` (source line 542). -/
def uniqueSpeakers (df : List Utterance) : List String :=
  uniqueAux (df.map (fun u => u.speaker)) []

/-- Row order on utterances used by `sort_values('start_time')`. -/
def leStart (u v : Utterance) : Prop := u.start_time ≤ v.start_time

instance : DecidableRel leStart := fun u v =>
  inferInstanceAs (Decidable (u.start_time ≤ v.start_time))

instance : IsTotal Utterance leStart := ⟨fun u v => le_total u.start_time v.start_time⟩

instance : IsTrans Utterance leStart := ⟨fun _ _ _ h h2 => le_trans h h2⟩

/-- The other-speaker utterances strictly inside the window, sorted by
`start_time`: the `other_speakers` frame of source lines 559–563. -/
def triggerCandidates (df : List Utterance) (speaker : String) (t1 t2 : ℚ) : List Utterance :=
  List.insertionSort leStart
    (df.filter (fun u =>
      (u.speaker != speaker) && decide (u.start_time > t1) && decide (u.start_time < t2)))

/-- The record appended for one detected change (source lines 571–586). -/
def changeRecord (speaker : String) (previous current trigger_utterance : Utterance) :
    ChangeEvent :=
  { affected_speaker := speaker
    change_type :=
      if current.sentiment_score - previous.sentiment_score > 0 then "改善" else "悪化"
    score_change := current.sentiment_score - previous.sentiment_score
    before_score := previous.sentiment_score
    after_score := current.sentiment_score
    before_time := previous.start_time
    after_time := current.start_time
    before_text := previous.text
    after_text := current.text
    trigger_speaker := trigger_utterance.speaker
    trigger_time := trigger_utterance.start_time
    trigger_text := trigger_utterance.text
    trigger_emotion := trigger_utterance.emotion
    trigger_score := trigger_utterance.sentiment_score }

/-- One iteration of the inner loop (source lines 545–586): threshold
test, trigger search, and emission; `iloc[-1]` on the sorted candidate
frame is `getLast?`, and the `len(other_speakers) > 0` guard is the
`Option.map` over it. -/
def pairEvent (df : List Utterance) (speaker : String) (previous current : Utterance)
    (threshold : ℚ) : Option ChangeEvent :=
  let score_change := current.sentiment_score - previous.sentiment_score
  if |score_change| ≥ threshold then
    ((triggerCandidates df speaker previous.start_time current.start_time).getLast?).map
      (fun trigger_utterance => changeRecord speaker previous current trigger_utterance)
  else none

/-- The body of the per-speaker loop (source lines 543–586): filter the
frame to one speaker, sort by `start_time`, and scan adjacent pairs. -/
def speakerChanges (df : List Utterance) (speaker : String) (threshold : ℚ) :
    List ChangeEvent :=
  let speaker_data :=
    List.insertionSort leStart (df.filter (fun u => u.speaker == speaker))
  (speaker_data.zip speaker_data.tail).filterMap
    (fun pc => pairEvent df speaker pc.1 pc.2 threshold)

/-- The change detector `analyze_emotion_changes` (source lines 528–588):
the `changes` list accumulated over all distinct speakers, in
first-appearance speaker order. -/
def analyze_emotion_changes (df : List Utterance) (threshold : ℚ) : List ChangeEvent :=
  (uniqueSpeakers df).flatMap (fun speaker => speakerChanges df speaker threshold)

/-- One parsed transcript block (source lines 160–165).  The source dict
uses keys `start` and `end`, renamed downstream to `start_time` and
`end_time` (source line 285); `end` is reserved in Lean, so the renamed
names are used here. -/
structure Segment where
  start_time : ℕ
  end_time : ℕ
  speaker : String
  text : String
deriving DecidableEq, Repr

/-- Python `str.strip()` with the default whitespace set: drop leading and
trailing whitespace characters. -/
def stripLine (s : String) : String :=
  String.mk
    (((s.toList.dropWhile Char.isWhitespace).reverse.dropWhile Char.isWhitespace).reverse)

/-- One decimal digit, as matched by the regex class `\d`. -/
def digitVal (c : Char) : Option ℕ :=
  if c.isDigit then some (c.toNat - Char.toNat (Char.ofNat 48)) else none

/-- Exactly two decimal digits, as matched by `\d{2}` followed by a
non-digit (or the end of the pattern). -/
def twoDigits : List Char → Option (ℕ × List Char)
  | c1 :: c2 :: rest => do
    let d1 ← digitVal c1
    let d2 ← digitVal c2
    pure (10 * d1 + d2, rest)
  | _ => none

/-- The bracketed speaker name: the characters before the first `]`,
which must be at least one, as matched by `\[([^\]]+)\]`. -/
def splitAtClose : List Char → Option (List Char × List Char)
  | [] => none
  | c :: cs =>
    if c = ']' then some ([], cs)
    else (splitAtClose cs).map (fun p => (c :: p.1, p.2))

/-- At least one whitespace character then any further whitespace, as
matched by `\s+` when the next pattern character is a digit. -/
def skipWs1 : List Char → Option (List Char)
  | [] => none
  | c :: cs => if c.isWhitespace then some (cs.dropWhile Char.isWhitespace) else none

/-- A colon, as matched by the literal `:` of the pattern. -/
def expectColon : List Char → Option (List Char)
  | c :: r => if c = ':' then some r else none
  | [] => none

/-- The timestamp-line pattern of the source,
`re.match(r'\[([^\]]+)\]\s+(\d{2}):(\d{2}):(\d{2})', line)` (source line
133): anchored at the start of the line, trailing characters allowed.
Yields the speaker name and the three numeric groups. -/
def parseTimestamp (s : String) : Option (String × ℕ × ℕ × ℕ) := do
  match s.toList with
  | c :: rest =>
    if c = '[' then do
      let p ← splitAtClose rest
      if p.1 = [] then none
      else do
        let r3 ← skipWs1 p.2
        let (h, r4) ← twoDigits r3
        let r5 ← expectColon r4
        let (m, r6) ← twoDigits r5
        let r7 ← expectColon r6
        let (sec, _) ← twoDigits r7
        pure (String.mk p.1, h, m, sec)
    else none
  | [] => none

/-- The forward scan for the end time (source lines 148–158): the time of
the first later line matching the timestamp pattern, else the 30-second
default. -/
def findEndTime (start : ℕ) : List String → ℕ
  | [] => start + 30
  | l :: ls =>
    match parseTimestamp (stripLine l) with
    | some (_, h, m, s) => h * 3600 + m * 60 + s
    | none => findEndTime start ls

/-- The block loop of `load_transcript_from_file` (source lines 113–176),
modelled on the list of file lines (the `open`/`readlines` I/O sits
outside the embedding).  A matched timestamp line consumes the following
line as text; an empty text line emits nothing; in either case the loop
resumes after the text line. -/
def load_transcript_from_file : List String → List Segment
  | [] => []
  | [_] => []
  | line :: textLine :: rest =>
    match parseTimestamp (stripLine line) with
    | some (speaker, h, m, s) =>
      let start_time := h * 3600 + m * 60 + s
      let text := stripLine textLine
      if text = "" then load_transcript_from_file rest
      else
        { start_time := start_time
          end_time := findEndTime start_time rest
          speaker := speaker
          text := text } :: load_transcript_from_file rest
    | none => load_transcript_from_file (textLine :: rest)

/-- Ascending key order used by `groupby('trigger_speaker')`, which sorts
its group keys. -/
def groupKeys (events : List ChangeEvent) : List String :=
  List.insertionSort (fun a b => a ≤ b)
    (uniqueAux (events.map (fun e => e.trigger_speaker)) [])

/-- The aggregation row for one trigger speaker: `count`, `mean`, `sum`
of `score_change` over the group (source lines 643–647). -/
def impactEntry (events : List ChangeEvent) (k : String) : InfluenceEntry :=
  let g := events.filter (fun e => e.trigger_speaker == k)
  let s := (g.map (fun e => e.score_change)).sum
  { trigger_speaker := k
    count := g.length
    avg_impact := s / (g.length : ℚ)
    total_impact := s }

/-- The influence table `trigger_impact` (source lines 643–648): one row
per trigger speaker, then `sort_values('total_impact', ascending=False)`. -/
def trigger_impact (events : List ChangeEvent) : List InfluenceEntry :=
  List.insertionSort (fun a b => b.total_impact ≤ a.total_impact)
    ((groupKeys events).map (impactEntry events))

/-! ### Concrete inputs used by witnesses and counterexamples -/

def uA0 : Utterance := ⟨"A", 0, 1, "a0", "中立", 0⟩

def uB1 : Utterance := ⟨"B", 1, 2, "b1", "中立", 0⟩

def uA2 : Utterance := ⟨"A", 2, 3, "a2", "中立", 0⟩

def uB3 : Utterance := ⟨"B", 3, 4, "b3", "ポジティブ", 1⟩

def uA10 : Utterance := ⟨"A", 10, 11, "a10", "ポジティブ", 1⟩

/-- A five-utterance, two-speaker frame: A swings from 0 to 1 between
times 2 and 10 (B speaks at 3 in between), and B swings from 0 to 1
between times 1 and 3 (A speaks at 2 in between). -/
def exDf : List Utterance := [uA0, uB1, uA10, uA2, uB3]

/-- A one-speaker frame: a large swing with no other-speaker utterance in
the window. -/
def exDfSolo : List Utterance := [uA0, uA10]

/-- A two-speaker frame in which speaker A has a single utterance. -/
def exDfSingle : List Utterance := [uA0, uB1]

/-- The two change events the detector finds in `exDf` at threshold 1,
used as a concrete event collection for the aggregation claims. -/
def exEvents : List ChangeEvent :=
  [changeRecord "A" uA2 uA10 uB3, changeRecord "B" uB1 uB3 uA2]

/-- Transcript lines in which the middle block has a timestamp but an
empty text line: it yields no utterance, yet its timestamp is still used
as the end time of the preceding block. -/
def exC8Lines : List String :=
  ["[A] 00:00:01", "hello", "[B] 00:00:05", "", "[C] 00:00:09", "world"]

/-- Descending order on aggregation rows used by
`sort_values('total_impact', ascending=False)`. -/
instance : IsTotal InfluenceEntry (fun a b => b.total_impact ≤ a.total_impact) :=
  ⟨fun a b => le_total b.total_impact a.total_impact⟩

instance : IsTrans InfluenceEntry (fun a b => b.total_impact ≤ a.total_impact) :=
  ⟨fun _ _ _ h h2 => le_trans h2 h⟩

/-! ### Helper lemmas about the embedding -/

theorem uniqueAux_mem (l : List String) (seen : List String) (a : String) :
    a ∈ uniqueAux l seen ↔ a ∈ l ∧ a ∉ seen := by
  induction l generalizing seen with
  | nil => simp [uniqueAux]
  | cons b t ih =>
    by_cases hb : b ∈ seen
    · rw [show uniqueAux (b :: t) seen = uniqueAux t seen from if_pos hb]
      rw [ih]
      constructor
      · rintro ⟨h1, h2⟩
        exact ⟨List.mem_cons_of_mem _ h1, h2⟩
      · rintro ⟨h1, h2⟩
        rcases List.mem_cons.mp h1 with rfl | h1
        · exact absurd hb h2
        · exact ⟨h1, h2⟩
    · simp only [show uniqueAux (b :: t) seen = b :: uniqueAux t (b :: seen) from if_neg hb,
        List.mem_cons, ih]
      constructor
      · rintro (rfl | ⟨h1, h2⟩)
        · exact ⟨Or.inl rfl, hb⟩
        · exact ⟨Or.inr h1, fun hs => h2 (Or.inr hs)⟩
      · rintro ⟨h1, h2⟩
        by_cases hab : a = b
        · exact Or.inl hab
        · rcases h1 with h1 | h1
          · exact absurd h1 hab
          · exact Or.inr ⟨h1, fun hs => h2 (hs.resolve_left hab)⟩

theorem uniqueAux_nodup (l : List String) (seen : List String) :
    (uniqueAux l seen).Nodup := by
  induction l generalizing seen with
  | nil => simp [uniqueAux]
  | cons b t ih =>
    by_cases hb : b ∈ seen
    · rw [show uniqueAux (b :: t) seen = uniqueAux t seen from if_pos hb]
      exact ih seen
    · rw [show uniqueAux (b :: t) seen = b :: uniqueAux t (b :: seen) from if_neg hb]
      rw [List.nodup_cons]
      refine ⟨fun hmem => ?_, ih (b :: seen)⟩
      exact ((uniqueAux_mem t (b :: seen) b).mp hmem).2 (List.mem_cons_self b seen)

/-- Summing an indicator over a duplicate-free key list that contains the
key picks out the single value. -/
theorem sum_map_ite_of_nodup (K : List String) (a : String) (c : ℚ)
    (hn : K.Nodup) (ha : a ∈ K) :
    (K.map (fun k => if a = k then c else 0)).sum = c := by
  induction K with
  | nil => cases ha
  | cons k t ih =>
    rw [List.map_cons, List.sum_cons]
    rcases List.mem_cons.mp ha with rfl | hat
    · rw [if_pos rfl]
      have hzero : (t.map (fun k => if a = k then c else 0)).sum = 0 := by
        apply List.sum_eq_zero
        intro x hx
        rcases List.mem_map.mp hx with ⟨k2, hk2, rfl⟩
        have : a ≠ k2 := fun h => (List.nodup_cons.mp hn).1 (h ▸ hk2)
        simp [this]
      rw [hzero, add_zero]
    · have hak : a ≠ k := by
        rintro rfl
        exact (List.nodup_cons.mp hn).1 hat
      rw [if_neg hak, zero_add]
      exact ih (List.nodup_cons.mp hn).2 hat

theorem sum_map_add_distrib {α : Type} (K : List α) (f g : α → ℚ) :
    (K.map (fun k => f k + g k)).sum = (K.map f).sum + (K.map g).sum := by
  induction K with
  | nil => simp
  | cons k t ih =>
    simp only [List.map_cons, List.sum_cons, ih]
    ring

/-- Splitting a sum over a duplicate-free family of groups: summing the
group sums over all keys recovers the total sum. -/
theorem sum_over_groups {α : Type} (f : α → String) (g : α → ℚ) (K : List String)
    (l : List α) (hn : K.Nodup) (hc : ∀ x ∈ l, f x ∈ K) :
    (K.map (fun k => ((l.filter (fun x => f x == k)).map g).sum)).sum
      = (l.map g).sum := by
  induction l with
  | nil => simp
  | cons x t ih =>
    have key : ∀ k : String,
        (((x :: t).filter (fun y => f y == k)).map g).sum
          = (if f x = k then g x else 0)
            + ((t.filter (fun y => f y == k)).map g).sum := by
      intro k
      by_cases h : f x = k
      · simp [List.filter_cons, h]
      · simp [List.filter_cons, h]
    calc (K.map (fun k => (((x :: t).filter (fun y => f y == k)).map g).sum)).sum
        = (K.map (fun k => (if f x = k then g x else 0)
            + ((t.filter (fun y => f y == k)).map g).sum)).sum := by
          congr 1
          exact List.map_congr_left (fun k _ => key k)
      _ = (K.map (fun k => if f x = k then g x else 0)).sum
            + (K.map (fun k => ((t.filter (fun y => f y == k)).map g).sum)).sum :=
          sum_map_add_distrib K _ _
      _ = g x + (t.map g).sum := by
          rw [sum_map_ite_of_nodup K (f x) (g x) hn (hc x (List.mem_cons_self x t)),
            ih (fun y hy => hc y (List.mem_cons_of_mem x hy))]
      _ = ((x :: t).map g).sum := by simp

/-- Mapping the surviving values of a `filterMap` is a sublist of mapping
the whole list, whenever the two maps agree on survivors. -/
theorem map_filterMap_sublist {α β γ : Type} (f : α → Option β) (g : β → γ) (h : α → γ)
    (H : ∀ x y, f x = some y → g y = h x) (l : List α) :
    ((l.filterMap f).map g).Sublist (l.map h) := by
  induction l with
  | nil => simp
  | cons x t ih =>
    rw [List.filterMap_cons, List.map_cons]
    cases hfx : f x with
    | none => exact ih.cons (h x)
    | some y =>
      rw [List.map_cons, H x y hfx]
      exact ih.cons₂ (h x)

/-- Destructor for a successful `pairEvent`: the threshold test passed,
the candidate list is non-empty, and the event is the built record of its
last element. -/
theorem pairEvent_eq_some {df : List Utterance} {s : String}
    {previous current : Utterance} {τ : ℚ} {e : ChangeEvent}
    (h : pairEvent df s previous current τ = some e) :
    |current.sentiment_score - previous.sentiment_score| ≥ τ
      ∧ ∃ trig,
          (triggerCandidates df s previous.start_time current.start_time).getLast?
            = some trig
          ∧ e = changeRecord s previous current trig := by
  unfold pairEvent at h
  by_cases hτ : |current.sentiment_score - previous.sentiment_score| ≥ τ
  · rw [if_pos hτ] at h
    rcases Option.map_eq_some'.mp h with ⟨trig, htrig, he⟩
    exact ⟨hτ, trig, htrig, he.symm⟩
  · rw [if_neg hτ] at h
    cases h

/-- Every member of the detector's output is the successful `pairEvent`
of some speaker and pair of utterances. -/
theorem exists_pairEvent_of_mem_analyze {df : List Utterance} {τ : ℚ} {e : ChangeEvent}
    (h : e ∈ analyze_emotion_changes df τ) :
    ∃ s previous current, s ∈ uniqueSpeakers df
      ∧ pairEvent df s previous current τ = some e := by
  rcases List.mem_flatMap.mp h with ⟨s, hs, he⟩
  unfold speakerChanges at he
  rcases List.mem_filterMap.mp he with ⟨pc, _, hpc⟩
  exact ⟨s, pc.1, pc.2, hs, hpc⟩

/-- Every event produced for a speaker names that speaker as affected. -/
theorem affected_of_mem_speakerChanges {df : List Utterance} {s : String} {τ : ℚ}
    {e : ChangeEvent} (h : e ∈ speakerChanges df s τ) :
    e.affected_speaker = s := by
  unfold speakerChanges at h
  rcases List.mem_filterMap.mp h with ⟨pc, _, hpc⟩
  rcases (pairEvent_eq_some hpc).2 with ⟨trig, _, he⟩
  rw [he]
  rfl

/-- The below-threshold branch of the inner loop. -/
theorem pairEvent_below {df : List Utterance} {s : String} {previous current : Utterance}
    {τ : ℚ} (h : |current.sentiment_score - previous.sentiment_score| < τ) :
    pairEvent df s previous current τ = none := by
  unfold pairEvent
  rw [if_neg (not_le.mpr h)]

/-- The at-or-above-threshold branch of the inner loop. -/
theorem pairEvent_at_least {df : List Utterance} {s : String} {previous current : Utterance}
    {τ : ℚ} (h : |current.sentiment_score - previous.sentiment_score| ≥ τ) :
    pairEvent df s previous current τ
      = ((triggerCandidates df s previous.start_time current.start_time).getLast?).map
          (fun trig => changeRecord s previous current trig) := by
  unfold pairEvent
  rw [if_pos h]

/-! ### Concrete evaluation of the pipeline on `exDf` -/

theorem exDf_sortA :
    List.insertionSort leStart (exDf.filter (fun u => u.speaker == "A"))
      = [uA0, uA2, uA10] := by decide

theorem exDf_sortB :
    List.insertionSort leStart (exDf.filter (fun u => u.speaker == "B"))
      = [uB1, uB3] := by decide

theorem exDf_pairA01 : pairEvent exDf "A" uA0 uA2 1 = none :=
  pairEvent_below (by norm_num [uA0, uA2])

theorem exDf_pairA12 :
    pairEvent exDf "A" uA2 uA10 1 = some (changeRecord "A" uA2 uA10 uB3) := by
  rw [pairEvent_at_least (by norm_num [uA2, uA10])]
  rfl

theorem exDf_pairB :
    pairEvent exDf "B" uB1 uB3 1 = some (changeRecord "B" uB1 uB3 uA2) := by
  rw [pairEvent_at_least (by norm_num [uB1, uB3])]
  rfl

theorem exDf_changesA :
    speakerChanges exDf "A" 1 = [changeRecord "A" uA2 uA10 uB3] := by
  simp only [speakerChanges, exDf_sortA, List.tail_cons, List.zip_cons_cons,
    List.zip_nil_right, List.filterMap_cons, List.filterMap_nil,
    exDf_pairA01, exDf_pairA12]

theorem exDf_changesB :
    speakerChanges exDf "B" 1 = [changeRecord "B" uB1 uB3 uA2] := by
  simp only [speakerChanges, exDf_sortB, List.tail_cons, List.zip_cons_cons,
    List.zip_nil_right, List.filterMap_cons, List.filterMap_nil, exDf_pairB]

theorem exDf_analyze :
    analyze_emotion_changes exDf 1
      = [changeRecord "A" uA2 uA10 uB3, changeRecord "B" uB1 uB3 uA2] := by
  have hu : uniqueSpeakers exDf = ["A", "B"] := by decide
  simp only [analyze_emotion_changes, hu, List.flatMap_cons, List.flatMap_nil,
    exDf_changesA, exDf_changesB, List.append_nil, List.cons_append, List.nil_append]

theorem exDf_pairA01_zero :
    pairEvent exDf "A" uA0 uA2 0 = some (changeRecord "A" uA0 uA2 uB1) := by
  rw [pairEvent_at_least (by norm_num [uA0, uA2])]
  rfl

theorem exDf_pairA12_zero :
    pairEvent exDf "A" uA2 uA10 0 = some (changeRecord "A" uA2 uA10 uB3) := by
  rw [pairEvent_at_least (by norm_num [uA2, uA10])]
  rfl

theorem exDf_pairB_zero :
    pairEvent exDf "B" uB1 uB3 0 = some (changeRecord "B" uB1 uB3 uA2) := by
  rw [pairEvent_at_least (by norm_num [uB1, uB3])]
  rfl

theorem exDf_analyze_zero :
    analyze_emotion_changes exDf 0
      = [changeRecord "A" uA0 uA2 uB1, changeRecord "A" uA2 uA10 uB3,
          changeRecord "B" uB1 uB3 uA2] := by
  have hu : uniqueSpeakers exDf = ["A", "B"] := by decide
  simp only [analyze_emotion_changes, hu, List.flatMap_cons, List.flatMap_nil,
    speakerChanges, exDf_sortA, exDf_sortB, List.tail_cons, List.zip_cons_cons,
    List.zip_nil_right, List.filterMap_cons, List.filterMap_nil,
    exDf_pairA01_zero, exDf_pairA12_zero, exDf_pairB_zero,
    List.append_nil, List.cons_append, List.nil_append]

/-! ### C1 — threshold validation -/

/-- C1, counterexample: `analyze_emotion_changes` called with the invalid
threshold 0 (≤ 0) is not rejected; it runs to completion and returns
three computed change events for `exDf`, so change events are computed
rather than the call failing fast with an `InvalidConfiguration` error. -/
theorem C1_counterexample :
    (0 : ℚ) ≤ 0 ∧ (analyze_emotion_changes exDf 0).length = 3 :=
  ⟨le_refl 0, by rw [exDf_analyze_zero]; rfl⟩

/-- C1 (amended): a threshold ≤ 0 is accepted, not rejected: the
threshold test `|score_change| >= threshold` passes for every pair of
utterances, so every adjacent same-speaker pair becomes a candidate and
the result is decided by trigger resolution alone. -/
theorem C1_threshold_le_zero_accepted :
    ∀ (df : List Utterance) (s : String) (previous current : Utterance) (τ : ℚ),
    τ ≤ 0 →
    pairEvent df s previous current τ
      = ((triggerCandidates df s previous.start_time current.start_time).getLast?).map
          (fun trig => changeRecord s previous current trig) := by
  intro df s previous current τ hτ
  unfold pairEvent
  rw [if_pos (le_trans hτ (abs_nonneg _))]

/-- C1, witness: the amended statement applied at the concrete frame
`exDf`, speaker A's pair at times 2 and 10, and threshold 0. -/
theorem C1_witness :
    (0 : ℚ) ≤ 0 ∧
    pairEvent exDf "A" uA2 uA10 0
      = ((triggerCandidates exDf "A" uA2.start_time uA10.start_time).getLast?).map
          (fun trig => changeRecord "A" uA2 uA10 trig) :=
  ⟨le_refl 0, C1_threshold_le_zero_accepted exDf "A" uA2 uA10 0 (le_refl 0)⟩

/-! ### C6 — a flagged change with no candidates is silently dropped -/

/-- C6: a candidate change (threshold reached) whose strict-interval
other-speaker candidate set is empty produces no `ChangeEvent` at all:
`pairEvent` returns `none`, and since the embedding is a total function
no error is raised. -/
theorem C6_empty_candidates_dropped :
    ∀ (df : List Utterance) (s : String) (previous current : Utterance) (τ : ℚ),
    |current.sentiment_score - previous.sentiment_score| ≥ τ →
    df.filter (fun u =>
        (u.speaker != s) && decide (u.start_time > previous.start_time)
          && decide (u.start_time < current.start_time)) = [] →
    pairEvent df s previous current τ = none := by
  intro df s previous current τ hτ hfilter
  unfold pairEvent
  rw [if_pos hτ]
  unfold triggerCandidates
  rw [hfilter]
  rfl

/-- C6, witness: the one-speaker frame `exDfSolo`, whose swing from 0 to
0.9 reaches the 0.3 threshold but has no other-speaker utterance between
times 0 and 10. -/
theorem C6_witness :
    pairEvent exDfSolo "A" uA0 uA10 (3/10) = none :=
  C6_empty_candidates_dropped exDfSolo "A" uA0 uA10 (3/10)
    (by norm_num [uA0, uA10]) (by decide)

/-! ### C9 — empty input and degenerate speakers -/

/-- C9: on an empty utterance collection both `analyze_emotion_changes`
and `trigger_impact` return empty results (with no error, the embedding
being total), and a speaker whose filtered utterance list has zero or one
rows contributes no candidate changes. -/
theorem C9_empty_inputs :
    (∀ τ : ℚ, analyze_emotion_changes [] τ = [])
    ∧ trigger_impact [] = []
    ∧ (∀ (df : List Utterance) (s : String) (τ : ℚ),
        (df.filter (fun u => u.speaker == s)).length ≤ 1 →
        speakerChanges df s τ = []) := by
  refine ⟨fun τ => rfl, rfl, ?_⟩
  intro df s τ hlen
  unfold speakerChanges
  have hsd : (List.insertionSort leStart (df.filter (fun u => u.speaker == s))).length ≤ 1 := by
    rw [List.length_insertionSort]
    exact hlen
  cases hcase : List.insertionSort leStart (df.filter (fun u => u.speaker == s)) with
  | nil => simp [hcase]
  | cons x t =>
    rw [hcase] at hsd
    have ht : t = [] := by
      cases t with
      | nil => rfl
      | cons y t2 => simp at hsd
    subst ht
    simp [hcase]

/-- C9, witness: the third conjunct applied at `exDfSingle`, where
speaker A has exactly one utterance. -/
theorem C9_witness :
    (exDfSingle.filter (fun u => u.speaker == "A")).length ≤ 1
    ∧ speakerChanges exDfSingle "A" (3/10) = [] :=
  ⟨by decide, C9_empty_inputs.2.2 exDfSingle "A" (3/10) (by decide)⟩

/-! ### C2 — trigger resolution -/

/-- C2: for every emitted event, the trigger is exactly the last element,
in ascending `start_time` order, of the other-speaker utterances whose
`start_time` lies strictly between the two flagged utterances
(`triggerCandidates` is that set, sorted ascending), and consequently the
trigger's time lies strictly between the before and after times. -/
theorem C2_trigger_is_last_in_window :
    ∀ (df : List Utterance) (τ : ℚ) (e : ChangeEvent),
    e ∈ analyze_emotion_changes df τ →
    ∃ trig : Utterance,
      (triggerCandidates df e.affected_speaker e.before_time e.after_time).getLast?
        = some trig
      ∧ trig.speaker = e.trigger_speaker
      ∧ trig.start_time = e.trigger_time
      ∧ trig.text = e.trigger_text
      ∧ trig.emotion = e.trigger_emotion
      ∧ trig.sentiment_score = e.trigger_score
      ∧ e.before_time < e.trigger_time
      ∧ e.trigger_time < e.after_time := by
  intro df τ e he
  rcases exists_pairEvent_of_mem_analyze he with ⟨s, previous, current, _, hpe⟩
  rcases (pairEvent_eq_some hpe).2 with ⟨trig, hlast, rfl⟩
  have hmem : trig ∈ triggerCandidates df s previous.start_time current.start_time :=
    List.mem_of_mem_getLast? hlast
  unfold triggerCandidates at hmem
  rw [List.mem_insertionSort] at hmem
  have hcond := (List.mem_filter.mp hmem).2
  simp only [Bool.and_eq_true, decide_eq_true_eq] at hcond
  refine ⟨trig, ?_, rfl, rfl, rfl, rfl, rfl, ?_, ?_⟩
  · exact hlast
  · exact hcond.1.2
  · exact hcond.2

/-- C2, witness: the theorem applied to the event affecting speaker A in
the concrete frame `exDf` at threshold 1. -/
theorem C2_witness :
    changeRecord "A" uA2 uA10 uB3 ∈ analyze_emotion_changes exDf 1
    ∧ ∃ trig : Utterance,
      (triggerCandidates exDf (changeRecord "A" uA2 uA10 uB3).affected_speaker
          (changeRecord "A" uA2 uA10 uB3).before_time
          (changeRecord "A" uA2 uA10 uB3).after_time).getLast?
        = some trig
      ∧ trig.speaker = (changeRecord "A" uA2 uA10 uB3).trigger_speaker
      ∧ trig.start_time = (changeRecord "A" uA2 uA10 uB3).trigger_time
      ∧ trig.text = (changeRecord "A" uA2 uA10 uB3).trigger_text
      ∧ trig.emotion = (changeRecord "A" uA2 uA10 uB3).trigger_emotion
      ∧ trig.sentiment_score = (changeRecord "A" uA2 uA10 uB3).trigger_score
      ∧ (changeRecord "A" uA2 uA10 uB3).before_time
          < (changeRecord "A" uA2 uA10 uB3).trigger_time
      ∧ (changeRecord "A" uA2 uA10 uB3).trigger_time
          < (changeRecord "A" uA2 uA10 uB3).after_time := by
  have hmem : changeRecord "A" uA2 uA10 uB3 ∈ analyze_emotion_changes exDf 1 := by
    rw [exDf_analyze]
    exact List.mem_cons_self _ _
  exact ⟨hmem, C2_trigger_is_last_in_window exDf 1 (changeRecord "A" uA2 uA10 uB3) hmem⟩

/-! ### C3 — threshold test and change classification -/

/-- C3: every emitted event satisfies `|score_change| ≥ threshold`, with
change type 改善 (improvement) exactly when the delta is positive and
悪化 (deterioration) otherwise; a pair whose absolute delta is below the
threshold produces nothing, and a pair at or above it is a candidate
whose fate is decided by trigger resolution alone. -/
theorem C3_threshold_and_classification :
    (∀ (df : List Utterance) (τ : ℚ) (e : ChangeEvent),
        e ∈ analyze_emotion_changes df τ →
        |e.score_change| ≥ τ
        ∧ (0 < e.score_change → e.change_type = "改善")
        ∧ (e.score_change ≤ 0 → e.change_type = "悪化"))
    ∧ (∀ (df : List Utterance) (s : String) (previous current : Utterance) (τ : ℚ),
        |current.sentiment_score - previous.sentiment_score| < τ →
        pairEvent df s previous current τ = none)
    ∧ (∀ (df : List Utterance) (s : String) (previous current : Utterance) (τ : ℚ),
        |current.sentiment_score - previous.sentiment_score| ≥ τ →
        pairEvent df s previous current τ
          = ((triggerCandidates df s previous.start_time current.start_time).getLast?).map
              (fun trig => changeRecord s previous current trig)) := by
  refine ⟨?_, ?_, ?_⟩
  · intro df τ e he
    rcases exists_pairEvent_of_mem_analyze he with ⟨s, previous, current, _, hpe⟩
    rcases pairEvent_eq_some hpe with ⟨hτ, trig, _, rfl⟩
    refine ⟨hτ, ?_, ?_⟩
    · intro hpos
      simp only [changeRecord] at hpos ⊢
      rw [if_pos hpos]
    · intro hnonpos
      simp only [changeRecord] at hnonpos ⊢
      rw [if_neg (not_lt.mpr hnonpos)]
  · intro df s previous current τ hlt
    unfold pairEvent
    rw [if_neg (not_le.mpr hlt)]
  · intro df s previous current τ hge
    unfold pairEvent
    rw [if_pos hge]

/-- C3, witness: the first conjunct applied to the event affecting
speaker B in `exDf` at threshold 1 (delta 1). -/
theorem C3_witness :
    changeRecord "B" uB1 uB3 uA2 ∈ analyze_emotion_changes exDf 1
    ∧ |(changeRecord "B" uB1 uB3 uA2).score_change| ≥ 1
    ∧ (0 < (changeRecord "B" uB1 uB3 uA2).score_change →
        (changeRecord "B" uB1 uB3 uA2).change_type = "改善")
    ∧ ((changeRecord "B" uB1 uB3 uA2).score_change ≤ 0 →
        (changeRecord "B" uB1 uB3 uA2).change_type = "悪化") := by
  have hmem : changeRecord "B" uB1 uB3 uA2 ∈ analyze_emotion_changes exDf 1 := by
    rw [exDf_analyze]
    exact List.mem_cons_of_mem _ (List.mem_cons_self _ _)
  exact ⟨hmem, C3_threshold_and_classification.1 exDf 1 (changeRecord "B" uB1 uB3 uA2) hmem⟩

/-! ### C4 — influence aggregation -/

/-- C4: `trigger_impact` groups events by trigger speaker; each row
carries the group's event count (positive), total impact (the sum of the
group's score changes) and mean impact (total divided by count); the
rows are returned sorted by `total_impact` descending, and every event's
trigger speaker has a row. -/
theorem C4_influence_aggregation :
    ∀ events : List ChangeEvent,
    List.Sorted (fun a b => b.total_impact ≤ a.total_impact) (trigger_impact events)
    ∧ (∀ entry ∈ trigger_impact events,
        0 < entry.count
        ∧ entry.count
            = (events.filter (fun e => e.trigger_speaker == entry.trigger_speaker)).length
        ∧ entry.total_impact
            = ((events.filter (fun e => e.trigger_speaker == entry.trigger_speaker)).map
                (fun e => e.score_change)).sum
        ∧ entry.avg_impact = entry.total_impact / (entry.count : ℚ))
    ∧ (∀ e ∈ events, ∃ entry ∈ trigger_impact events,
        entry.trigger_speaker = e.trigger_speaker) := by
  intro events
  refine ⟨List.sorted_insertionSort _ _, ?_, ?_⟩
  · intro entry hentry
    unfold trigger_impact at hentry
    rw [List.mem_insertionSort] at hentry
    rcases List.mem_map.mp hentry with ⟨k, hk, rfl⟩
    have hkmem : k ∈ uniqueAux (events.map (fun e => e.trigger_speaker)) [] := by
      unfold groupKeys at hk
      rw [List.mem_insertionSort] at hk
      exact hk
    rcases ((uniqueAux_mem _ _ _).mp hkmem).1 with hmap
    rcases List.mem_map.mp hmap with ⟨e, he, hke⟩
    have hef : e ∈ events.filter (fun x => x.trigger_speaker == k) :=
      List.mem_filter.mpr ⟨he, by simp [hke]⟩
    refine ⟨?_, rfl, rfl, rfl⟩
    exact List.length_pos.mpr (List.ne_nil_of_mem hef)
  · intro e he
    refine ⟨impactEntry events e.trigger_speaker, ?_, rfl⟩
    unfold trigger_impact
    rw [List.mem_insertionSort]
    apply List.mem_map_of_mem
    unfold groupKeys
    rw [List.mem_insertionSort]
    exact (uniqueAux_mem _ _ _).mpr ⟨List.mem_map_of_mem _ he, List.not_mem_nil _⟩

/-- C4, witness: the aggregation row of trigger speaker B in the
two-event collection `exEvents`. -/
theorem C4_witness :
    impactEntry exEvents "B" ∈ trigger_impact exEvents
    ∧ 0 < (impactEntry exEvents "B").count
    ∧ (impactEntry exEvents "B").count
        = (exEvents.filter
            (fun e => e.trigger_speaker == (impactEntry exEvents "B").trigger_speaker)).length
    ∧ (impactEntry exEvents "B").total_impact
        = ((exEvents.filter
            (fun e => e.trigger_speaker == (impactEntry exEvents "B").trigger_speaker)).map
              (fun e => e.score_change)).sum
    ∧ (impactEntry exEvents "B").avg_impact
        = (impactEntry exEvents "B").total_impact
            / ((impactEntry exEvents "B").count : ℚ) := by
  have hkey : "B" ∈ groupKeys exEvents := by
    unfold groupKeys
    rw [List.mem_insertionSort]
    refine (uniqueAux_mem _ _ _).mpr ⟨?_, List.not_mem_nil _⟩
    exact List.mem_map.mpr ⟨changeRecord "A" uA2 uA10 uB3, List.mem_cons_self _ _, rfl⟩
  have hmem : impactEntry exEvents "B" ∈ trigger_impact exEvents := by
    unfold trigger_impact
    rw [List.mem_insertionSort]
    exact List.mem_map_of_mem _ hkey
  exact ⟨hmem, (C4_influence_aggregation exEvents).2.1 _ hmem⟩

/-! ### C5 — conservation of total impact -/

/-- C5: the sum of `total_impact` over the rows of `trigger_impact`
equals the sum of `score_change` over the input events; signs are
carried through both sorts and the grouping unchanged. -/
theorem C5_total_impact_conservation :
    ∀ events : List ChangeEvent,
    ((trigger_impact events).map (fun entry => entry.total_impact)).sum
      = (events.map (fun e => e.score_change)).sum := by
  intro events
  unfold trigger_impact
  rw [((List.perm_insertionSort (fun a b => b.total_impact ≤ a.total_impact)
    ((groupKeys events).map (impactEntry events))).map
      (fun entry => entry.total_impact)).sum_eq]
  rw [List.map_map]
  unfold groupKeys
  rw [((List.perm_insertionSort (fun a b : String => a ≤ b)
    (uniqueAux (events.map (fun e => e.trigger_speaker)) [])).map
      ((fun entry => entry.total_impact) ∘ impactEntry events)).sum_eq]
  exact sum_over_groups (fun e => e.trigger_speaker) (fun e => e.score_change) _ events
    (uniqueAux_nodup _ _)
    (fun e he => (uniqueAux_mem _ _ _).mpr ⟨List.mem_map_of_mem _ he, List.not_mem_nil _⟩)

/-! ### C10 — output ordering of the detector -/

/-- Filtering the concatenated per-key outputs down to one key recovers
exactly that key's block, provided the key list has no duplicates and
every produced element names its key. -/
theorem filter_flatMap_by_key (ks : List String) (F : String → List ChangeEvent)
    (hk : ks.Nodup) (hF : ∀ k, ∀ e ∈ F k, e.affected_speaker = k) (s : String) :
    (ks.flatMap F).filter (fun e => e.affected_speaker == s)
      = if s ∈ ks then F s else [] := by
  induction ks with
  | nil => simp
  | cons k t ih =>
    rcases List.nodup_cons.mp hk with ⟨hkt, hnt⟩
    rw [List.flatMap_cons, List.filter_append, ih hnt]
    by_cases hs : s = k
    · subst hs
      have h1 : (F s).filter (fun e => e.affected_speaker == s) = F s :=
        List.filter_eq_self.mpr (fun e he => by simp [hF s e he])
      rw [h1, if_neg hkt, if_pos (List.mem_cons_self _ _), List.append_nil]
    · have h1 : (F k).filter (fun e => e.affected_speaker == s) = [] :=
        List.filter_eq_nil_iff.mpr (fun e he => by
          simp only [hF k e he, beq_iff_eq]
          exact fun h => hs h.symm)
      rw [h1, List.nil_append]
      by_cases hst : s ∈ t
      · rw [if_pos hst, if_pos (List.mem_cons_of_mem _ hst)]
      · rw [if_neg hst, if_neg (fun h => (List.mem_cons.mp h).elim hs hst)]

/-- C10: the detector's output is the concatenation, over distinct
speakers in first-appearance order, of per-speaker blocks (restricting
the output to one speaker yields exactly that speaker's block); inside a
block the after-times are nondecreasing, following the speaker's
time-sorted scan; and the output as a whole is not globally sorted by
event time, witnessed by `exDf`. -/
theorem C10_output_grouped_by_speaker :
    (∀ (df : List Utterance) (τ : ℚ) (s : String),
        (analyze_emotion_changes df τ).filter (fun e => e.affected_speaker == s)
          = if s ∈ uniqueSpeakers df then speakerChanges df s τ else [])
    ∧ (∀ (df : List Utterance) (τ : ℚ) (s : String),
        List.Sorted (fun a b : ℚ => a ≤ b)
          ((speakerChanges df s τ).map (fun e => e.after_time)))
    ∧ ¬ List.Sorted (fun a b : ℚ => a ≤ b)
        ((analyze_emotion_changes exDf 1).map (fun e => e.after_time)) := by
  refine ⟨?_, ?_, ?_⟩
  · intro df τ s
    exact filter_flatMap_by_key (uniqueSpeakers df)
      (fun speaker => speakerChanges df speaker τ)
      (uniqueAux_nodup _ _)
      (fun k e he => affected_of_mem_speakerChanges he) s
  · intro df τ s
    unfold speakerChanges
    have hsorted : List.Sorted leStart
        (List.insertionSort leStart (df.filter (fun u => u.speaker == s))) :=
      List.sorted_insertionSort leStart _
    have hsub := map_filterMap_sublist
      (fun pc : Utterance × Utterance => pairEvent df s pc.1 pc.2 τ)
      (fun e => e.after_time) (fun pc => pc.2.start_time)
      (fun pc e hpe => by
        rcases (pairEvent_eq_some hpe).2 with ⟨trig, _, rfl⟩
        rfl)
      ((List.insertionSort leStart (df.filter (fun u => u.speaker == s))).zip
        (List.insertionSort leStart (df.filter (fun u => u.speaker == s))).tail)
    refine List.Pairwise.sublist hsub ?_
    have hzip' : ((List.insertionSort leStart (df.filter (fun u => u.speaker == s))).zip
        (List.insertionSort leStart (df.filter (fun u => u.speaker == s))).tail).map
          Prod.snd
        = (List.insertionSort leStart (df.filter (fun u => u.speaker == s))).tail := by
      apply List.map_snd_zip
      cases List.insertionSort leStart (df.filter (fun u => u.speaker == s)) with
      | nil => simp
      | cons x t2 => simp
    have hmm : ((List.insertionSort leStart (df.filter (fun u => u.speaker == s))).zip
        (List.insertionSort leStart (df.filter (fun u => u.speaker == s))).tail).map
          (fun pc => pc.2.start_time)
        = (((List.insertionSort leStart (df.filter (fun u => u.speaker == s))).zip
            (List.insertionSort leStart (df.filter (fun u => u.speaker == s))).tail).map
              Prod.snd).map (fun u => u.start_time) := by
      rw [List.map_map]
      rfl
    rw [hmm, hzip']
    exact List.pairwise_map.mpr hsorted.tail
  · rw [exDf_analyze]
    decide

/-! ### C8 — transcript parsing: start and end times -/

/-- C8, counterexample: in `exC8Lines` the block of speaker A is followed
by a timestamp line (B at 5 seconds) whose own block has an empty text
line and so produces no utterance; A's segment ends at 5, while the next
parsed utterance (C) starts at 9, so `end_time` does not equal the next
utterance's start time even though a successor timestamp exists. -/
theorem C8_counterexample :
    load_transcript_from_file exC8Lines
      = [⟨1, 5, "A", "hello"⟩, ⟨9, 39, "C", "world"⟩]
    ∧ ¬ (∀ g1 g2 : Segment, ∀ rest : List Segment,
          load_transcript_from_file exC8Lines = g1 :: g2 :: rest →
          g1.end_time = g2.start_time) := by
  have h : load_transcript_from_file exC8Lines
      = [⟨1, 5, "A", "hello"⟩, ⟨9, 39, "C", "world"⟩] := by decide
  refine ⟨h, fun hall => ?_⟩
  have h59 := hall ⟨1, 5, "A", "hello"⟩ ⟨9, 39, "C", "world"⟩ [] h
  exact absurd h59 (by decide)

/-- C8 (amended): a parsed block's `start_time` is
`hours * 3600 + minutes * 60 + seconds` from its `HH:MM:SS` stamp, and
its `end_time` is the time encoded by the first timestamp-matching line
after the block's text line — whether or not that line's own block yields
an utterance — defaulting to `start_time + 30` when no such line exists. -/
theorem C8_end_time_from_next_timestamp_line :
    (∀ (line textLine : String) (rest : List String) (sp : String) (h m s : ℕ),
        parseTimestamp (stripLine line) = some (sp, h, m, s) →
        stripLine textLine ≠ "" →
        load_transcript_from_file (line :: textLine :: rest)
          = { start_time := h * 3600 + m * 60 + s,
              end_time := findEndTime (h * 3600 + m * 60 + s) rest,
              speaker := sp,
              text := stripLine textLine }
            :: load_transcript_from_file rest)
    ∧ (∀ (start : ℕ) (rest : List String),
        findEndTime start rest
          = match rest.findSome? (fun l => parseTimestamp (stripLine l)) with
            | some (_, h, m, s) => h * 3600 + m * 60 + s
            | none => start + 30) := by
  constructor
  · intro line textLine rest sp h m s hparse htext
    simp only [load_transcript_from_file, hparse, if_neg htext]
  · intro start rest
    induction rest with
    | nil => simp [findEndTime]
    | cons l ls ih =>
      rw [findEndTime, List.findSome?_cons]
      cases hp : parseTimestamp (stripLine l) with
      | none => rw [ih]
      | some v => rfl

/-- C8, witness: the amended statement applied to a concrete two-line
block followed by one timestamp line. -/
theorem C8_witness :
    parseTimestamp (stripLine "[A] 00:00:01") = some ("A", 0, 0, 1)
    ∧ stripLine "hi" ≠ ""
    ∧ load_transcript_from_file ["[A] 00:00:01", "hi", "[B] 00:00:05"]
        = [{ start_time := 0 * 3600 + 0 * 60 + 1,
             end_time := findEndTime (0 * 3600 + 0 * 60 + 1) ["[B] 00:00:05"],
             speaker := "A", text := stripLine "hi" }] := by
  refine ⟨by decide, by decide, ?_⟩
  rw [C8_end_time_from_next_timestamp_line.1 "[A] 00:00:01" "hi" ["[B] 00:00:05"]
    "A" 0 0 1 (by decide) (by decide)]
  rfl
